import Mathlib

/-!
Verification of the tw-limitup-broker-watch pipeline.

This file shallowly embeds the parts of the repository that the verified
properties talk about:

* `src/app/broker_matcher.py` — `_normalize` and `match_target_broker`,
  including Python's dynamic typing (the function is called with arbitrary
  values, and iterating a non-iterable raises a TypeError);
* `src/source_site/limitup_list.py` — the per-row coercion and threshold
  filter of `_parse_limitup_table`, and its table-selection step;
* `src/source_site/broker_detail.py` — `parse_broker_table`'s numeric
  coercion of broker rows;
* `src/pipeline/build_broker_hits.py` — `build_broker_hits`'s per-stock loop;
* `src/app/main.py` — the control flow of `run_for_date` around the calls to
  `build_limitup_list` and `send_email`, modelled at the level of the
  positional-argument counts those calls pass.

Numbers are modelled as rationals (Python floats on the decimal literals the
pages carry are exact there), with a separate `nan` marker where NaN
propagation matters. Fallible steps return `Option`/`Except`.
-/

/-! ## Character-level string helpers

Python `str.strip()` / `str.replace(" ", "")` / `str.lower()` are modelled on
`List Char`. Lean's `Char.isWhitespace`-style set (space, tab, CR, LF) stands
in for Python's whitespace class, and `pyCharLower` below models the Unicode
lower-casing of `str.lower()` character by character. -/

def isWS (c : Char) : Bool :=
  c == ' ' || c == '\t' || c == '\n' || c == '\r'

/-- Model of Python `str.strip()`: drop whitespace from both ends. -/
def trimChars (s : List Char) : List Char :=
  ((s.dropWhile isWS).reverse.dropWhile isWS).reverse

/-- Digit run of a decimal literal, as a natural number. -/
def digitsVal (ds : List Char) : Nat :=
  ds.foldl (fun a c => 10 * a + (c.toNat - 48)) 0

/-- Does `pat` occur as a prefix of `s`? -/
def charsPrefixOf : List Char → List Char → Bool
  | [], _ => true
  | _ :: _, [] => false
  | c :: cs, d :: ds => c == d && charsPrefixOf cs ds

/-- Does `pat` occur as a contiguous substring of `s`? Models Python's
`pat in s`. -/
def charsContains (pat : List Char) : List Char → Bool
  | [] => charsPrefixOf pat []
  | c :: rest => charsPrefixOf pat (c :: rest) || charsContains pat rest

/-! ## Model of Python numeric parsing -/

/-- Mantissa of a Python float literal: `digits`, `digits.digits`, `.digits`
or `digits.`, with at least one digit. Returns the value and the unconsumed
rest. -/
def parseUnsigned (cs : List Char) : Option (ℚ × List Char) :=
  let ip := cs.takeWhile Char.isDigit
  let rest1 := cs.dropWhile Char.isDigit
  match rest1 with
  | '.' :: rest2 =>
    let fp := rest2.takeWhile Char.isDigit
    let rest3 := rest2.dropWhile Char.isDigit
    if ip.isEmpty && fp.isEmpty then none
    else some ((digitsVal ip : ℚ) + (digitsVal fp : ℚ) / (10 : ℚ) ^ fp.length, rest3)
  | _ =>
    if ip.isEmpty then none
    else some ((digitsVal ip : ℚ), rest1)

/-- Optional exponent suffix `e±digits` of a Python float literal, applied to
the mantissa `m`; anything else unconsumed makes the literal invalid. -/
def parseExponent (m : ℚ) (cs : List Char) : Option ℚ :=
  match cs with
  | [] => some m
  | e :: rest =>
    if e == 'e' || e == 'E' then
      let sr : ℤ × List Char :=
        match rest with
        | '+' :: r => (1, r)
        | '-' :: r => (-1, r)
        | r => (1, r)
      let ds := sr.2.takeWhile Char.isDigit
      let rest3 := sr.2.dropWhile Char.isDigit
      if ds.isEmpty then none
      else if rest3.isEmpty then some (m * (10 : ℚ) ^ (sr.1 * (digitsVal ds : ℤ)))
      else none
    else none

/-- Model of Python `float(s)` on finite decimal literals: surrounding
whitespace is stripped, an optional sign precedes the mantissa, an optional
exponent follows. The special forms `inf`, `nan` and underscore separators
are outside the inputs this repository feeds to `float` and are not modelled
(they are reported as unparsable here). -/
def pyFloatParse (s : String) : Option ℚ :=
  let cs := trimChars s.toList
  let sc : ℚ × List Char :=
    match cs with
    | '+' :: r => (1, r)
    | '-' :: r => (-1, r)
    | r => (1, r)
  match parseUnsigned sc.2 with
  | none => none
  | some mr => (parseExponent mr.1 mr.2).map (fun v => sc.1 * v)

/-- Model of Python `int(s)`: optional sign followed by digits only. -/
def pyIntParse (s : String) : Option ℤ :=
  let cs := trimChars s.toList
  let sc : ℤ × List Char :=
    match cs with
    | '+' :: r => (1, r)
    | '-' :: r => (-1, r)
    | r => (1, r)
  if !sc.2.isEmpty && sc.2.all Char.isDigit then some (sc.1 * (digitsVal sc.2 : ℤ))
  else none

/-- Model of `pandas.to_numeric(..., errors="coerce")` on a single cell
string: it accepts plain decimal literals exactly like `float` (in
particular it does NOT understand thousands separators), and an unparsable
cell becomes NaN, rendered here as `none`. The sources always `.str.strip()`
before calling it, so the whitespace treatment is immaterial. -/
def pdToNumeric (s : String) : Option ℚ :=
  pyFloatParse s

/-! ## Python values and the broker matcher
    (src/src/app/broker_matcher.py) -/

/-- A Python float is a number or NaN. -/
inductive PyFloat where
  | num (q : ℚ)
  | nan
deriving DecidableEq

/-- Fragment of Python's value universe that reaches `match_target_broker`:
None, floats, strings, lists and string-keyed dicts. -/
inductive PyValue where
  | none
  | float (f : PyFloat)
  | str (s : String)
  | list (xs : List PyValue)
  | dict (kvs : List (String × PyValue))

/-- Model of Python truthiness (`bool(v)`): None is falsy, a float is falsy
exactly when it is 0.0 (NaN is truthy), containers and strings are falsy
exactly when empty. -/
def pyTruthy : PyValue → Bool
  | PyValue.none => false
  | PyValue.float (PyFloat.num q) => decide (q ≠ 0)
  | PyValue.float PyFloat.nan => true
  | PyValue.str s => decide (s ≠ "")
  | PyValue.list xs => !xs.isEmpty
  | PyValue.dict kvs => !kvs.isEmpty

/-- Model of Python `str(v)` as used by `_normalize`. It is exact on strings
(the only case whose text the matcher ever compares); for None it is "None"
(unreached: `_normalize` special-cases None first), for floats the decimal
text is stood in for by the rational's rendering, and for containers only the
fact that the rendering is a nonempty bracketed string is ever relied on, so
their element text is elided. -/
def pyStr : PyValue → String
  | PyValue.none => "None"
  | PyValue.float (PyFloat.num q) => toString q
  | PyValue.float PyFloat.nan => "nan"
  | PyValue.str s => s
  | PyValue.list _ => "[...]"
  | PyValue.dict _ => "\x7b...\x7d"

/-- Model of the per-character action of Python `str.lower()`: the Unicode
simple lowercase mapping, implemented on the blocks a broker page can carry —
ASCII, Latin-1, Greek and Cyrillic capitals, and full-width Latin capitals
(U+FF21-U+FF3A, common on Taiwanese pages); uncased characters (digits, CJK,
punctuation) map to themselves. The few code points whose Python lowering is
not one-to-one (e.g. U+0130) or lie in blocks beyond these do not occur in
broker names or codes and are left fixed. -/
def pyCharLower (c : Char) : Char :=
  let n := c.toNat
  if 65 ≤ n ∧ n ≤ 90 then Char.ofNat (n + 32)
  else if 192 ≤ n ∧ n ≤ 222 ∧ n ≠ 215 then Char.ofNat (n + 32)
  else if 913 ≤ n ∧ n ≤ 937 ∧ n ≠ 930 then Char.ofNat (n + 32)
  else if 1040 ≤ n ∧ n ≤ 1071 then Char.ofNat (n + 32)
  else if 1024 ≤ n ∧ n ≤ 1039 then Char.ofNat (n + 80)
  else if 65313 ≤ n ∧ n ≤ 65338 then Char.ofNat (n + 32)
  else c

/-- Character pipeline of `_normalize` (broker_matcher.py lines 12-15):
`str(text).lower().replace(" ", "").strip()`. `.replace(" ", "")` removes
every space character and nothing else, modelled as a filter. -/
def pyNormalizeChars (s : List Char) : List Char :=
  trimChars ((s.map pyCharLower).filter (fun c => c != ' '))

/-- Model of `_normalize` (broker_matcher.py lines 6-15): None becomes the
empty string, anything else is stringified, lower-cased, space-stripped and
trimmed. -/
def pyNormalize : PyValue → String
  | PyValue.none => ""
  | v => String.mk (pyNormalizeChars (pyStr v).toList)

/-- Model of `dict.get(key)` (absent key gives None). -/
def dictGet (kvs : List (String × PyValue)) (k : String) : PyValue :=
  match kvs.find? (fun p => p.1 == k) with
  | some p => p.2
  | Option.none => PyValue.none

/-- Model of iterating a Python value (`for item in v`): lists yield their
elements, strings their characters, dicts their keys; None and floats are not
iterable and raise a TypeError. -/
def pyIter : PyValue → Except String (List PyValue)
  | PyValue.list xs => Except.ok xs
  | PyValue.str s => Except.ok (s.toList.map (fun c => PyValue.str c.toString))
  | PyValue.dict kvs => Except.ok (kvs.map (fun p => PyValue.str p.1))
  | PyValue.none => Except.error "TypeError: NoneType object is not iterable"
  | PyValue.float _ => Except.error "TypeError: float object is not iterable"

/-- Normalized (name, code) of one entry of the target list
(broker_matcher.py lines 56-63): a dict uses its "name"/"code" fields, any
other value is itself normalized as a name with an empty code. -/
def targetFields (item : PyValue) : String × String :=
  match item with
  | PyValue.dict kvs => (pyNormalize (dictGet kvs "name"), pyNormalize (dictGet kvs "code"))
  | v => (pyNormalize v, "")

/-- Loop body of `match_target_broker` (broker_matcher.py lines 55-73): for
each entry, name equality is tested first, then code equality, each only when
both sides are non-empty; the first match wins and the loop falls through to
(False, None). -/
def matchLoop (norm_name norm_code : String) : List PyValue → Bool × Option PyValue
  | [] => (false, Option.none)
  | item :: rest =>
    if norm_name ≠ "" ∧ (targetFields item).1 ≠ "" ∧ norm_name = (targetFields item).1 then
      (true, some item)
    else if norm_code ≠ "" ∧ (targetFields item).2 ≠ "" ∧ norm_code = (targetFields item).2 then
      (true, some item)
    else matchLoop norm_name norm_code rest

/-- Model of `match_target_broker` (broker_matcher.py lines 18-73). A falsy
target list short-circuits, then inputs that both normalize to the empty
string short-circuit, then the target list is iterated — which raises a
TypeError when the passed value is not iterable, exactly as in Python. -/
def match_target_broker (broker_name broker_code target_brokers : PyValue) :
    Except String (Bool × Option PyValue) :=
  if pyTruthy target_brokers = false then Except.ok (false, Option.none)
  else if pyNormalize broker_name = "" ∧ pyNormalize broker_code = "" then
    Except.ok (false, Option.none)
  else
    Except.map (matchLoop (pyNormalize broker_name) (pyNormalize broker_code))
      (pyIter target_brokers)

/-- One entry matches, in the sense of the loop of `match_target_broker`:
name equality (both normalized sides non-empty) or code equality likewise. -/
def matchesTarget (norm_name norm_code : String) (item : PyValue) : Bool :=
  decide (norm_name ≠ "" ∧ (targetFields item).1 ≠ "" ∧ norm_name = (targetFields item).1) ||
  decide (norm_code ≠ "" ∧ (targetFields item).2 ≠ "" ∧ norm_code = (targetFields item).2)

/-- Canonical form a broker string is compared through: lower-cased (per the
`str.lower()` model `pyCharLower`) with all space characters removed
(trimming of the ends is applied on top of this by `_normalize` and cannot
distinguish two strings with the same canonical form). -/
def canonChars (s : String) : List Char :=
  (s.toList.map pyCharLower).filter (fun c => c != ' ')

/-! ## Limit-up list parsing
    (src/src/source_site/limitup_list.py, `_parse_limitup_table`) -/

/-- One raw table row, as the text of the cells found at the identified code,
name, price, percent-change and volume columns (the column identification of
limitup_list.py lines 74-92 assigns each role to one column of the frame;
the coercion below is what happens to the cell at each role). -/
structure RawRow where
  codeCell : String
  nameCell : String
  closeCell : String
  pctCell : String
  volCell : String
deriving DecidableEq

/-- An extracted table: header texts and data rows. -/
structure RawTable where
  headers : List String
  rows : List RawRow
deriving DecidableEq

/-- Output row schema of `_parse_limitup_table` (limitup_list.py line 18):
close and volume may be missing, pct_change is always present. -/
structure LimitUpRow where
  trade_date : String
  code : String
  stock_name : String
  market : String
  close : Option ℚ
  volume : Option ℤ
  pct_change : ℚ
deriving DecidableEq

/-- Model of the code-cell handling (limitup_list.py lines 96-105): a cell
that is all digits is the code; otherwise the digits embedded in it are
extracted, and a digit-free cell drops the row (`continue`). Python
`str.isdigit` is true exactly on nonempty all-digit strings. -/
def extractCode (cell : String) : Option String :=
  let code := String.mk (trimChars cell.toList)
  if !code.toList.isEmpty && code.toList.all Char.isDigit then some code
  else
    let ds := code.toList.filter Char.isDigit
    if ds.isEmpty then none else some (String.mk ds)

/-- Model of the percent-change coercion (limitup_list.py lines 106-109):
strip, remove every percent sign, plus sign and comma, strip again, parse as
float. The parsed value is NOT divided by 100: percent-change stays in
percentage units. -/
def pctCoerce (cell : String) : Option ℚ :=
  pyFloatParse (String.mk (trimChars
    ((trimChars cell.toList).filter (fun c => c != '%' && c != '+' && c != ','))))

/-- Model of the close-price coercion (limitup_list.py lines 115-118):
remove commas, strip, parse as float; failure becomes None. -/
def closeCoerce (cell : String) : Option ℚ :=
  pyFloatParse (String.mk (trimChars (cell.toList.filter (fun c => c != ','))))

/-- Model of the volume coercion (limitup_list.py lines 120-123): remove
commas, strip, parse as int; failure becomes None. -/
def volumeCoerce (cell : String) : Option ℤ :=
  pyIntParse (String.mk (trimChars (cell.toList.filter (fun c => c != ','))))

/-- Model of one iteration of the row loop of `_parse_limitup_table`
(limitup_list.py lines 95-132): a row with no extractable code is dropped, a
row whose percent-change cell does not parse is dropped (`continue` in the
except branch), a row whose percent-change is below the threshold is dropped,
and every surviving row is emitted with close/volume None when their cells do
not parse. -/
def parseLimitupRow (td mkt : String) (minPct : ℚ) (r : RawRow) : Option LimitUpRow :=
  match extractCode (RawRow.codeCell r) with
  | Option.none => Option.none
  | some code =>
    match pctCoerce (RawRow.pctCell r) with
    | Option.none => Option.none
    | some pv =>
      if pv < minPct then Option.none
      else some
        { trade_date := td
          code := code
          stock_name := String.mk (trimChars (RawRow.nameCell r).toList)
          market := mkt
          close := closeCoerce (RawRow.closeCell r)
          volume := volumeCoerce (RawRow.volCell r)
          pct_change := pv }

/-- Model of the table-selection step of `_parse_limitup_table`
(limitup_list.py lines 66-69): `pd.read_html` yields the document's tables in
document order and the FIRST one is taken; no header keywords are consulted. -/
def selected_table (tables : List RawTable) : Option RawTable :=
  tables.head?

/-- Model of `_parse_limitup_table` over the document's tables: an empty
document yields an empty frame (limitup_list.py line 68), otherwise the rows
of the first table are coerced and filtered. -/
def parse_limitup_table (tables : List RawTable) (td mkt : String) (minPct : ℚ) :
    List LimitUpRow :=
  match selected_table tables with
  | Option.none => []
  | some t => t.rows.filterMap (parseLimitupRow td mkt minPct)

/-- Modelled from the spec (spec.md section 4.1), for comparison with the
code's actual selection: prefer a table whose header text contains both a
name-indicator keyword and a code-indicator keyword, fall back to any table
containing a code-indicator keyword, fail (None) if none qualifies. -/
def spec_select_table (tables : List RawTable) : Option RawTable :=
  let hasKw := fun (t : RawTable) (kws : List String) =>
    t.headers.any (fun h => kws.any (fun kw => charsContains kw.toList h.toList))
  match tables.find? (fun t => hasKw t ["名稱"] && hasKw t ["代號", "股票"]) with
  | some t => some t
  | Option.none => tables.find? (fun t => hasKw t ["代號", "股票"])

/-! ## Broker-detail parsing
    (src/src/source_site/broker_detail.py, `parse_broker_table`) -/

/-- Canonical field a broker-detail column header is renamed to
(broker_detail.py lines 39-50): the first matching rule of the elif chain
wins, an unrecognized header keeps its name (None here). -/
def brokerColumnRole (col : String) : Option String :=
  if ["券商", "分點", "營業部"].any (fun k => charsContains k.toList col.toList) then
    some "broker_name"
  else if charsContains "買進".toList col.toList || charsContains "買入".toList col.toList then
    some "buy_volume"
  else if charsContains "賣出".toList col.toList then
    some "sell_volume"
  else if charsContains "買超".toList col.toList &&
      (charsContains "張".toList col.toList || charsContains "股".toList col.toList) then
    some "net_volume"
  else if charsContains "比率".toList col.toList || charsContains "%".toList col.toList then
    some "buy_ratio"
  else Option.none

/-- Raw cells of one broker-detail row at the renamed columns. The ratio cell
is None when the table had no buy-ratio column (broker_detail.py lines 63-65
then fill the whole column with None). The volume cells are taken as present,
as on the pages this parser targets. -/
structure RawBrokerCells where
  nameCell : String
  buyCell : String
  sellCell : String
  netCell : String
  ratioCell : Option String
deriving DecidableEq

/-- Output row schema of `parse_broker_table`. The buy-ratio value is None
for a missing column, NaN for an unparsable cell, and a number otherwise. -/
structure BrokerRow where
  broker_name : PyValue
  buy_volume : ℚ
  sell_volume : ℚ
  net_volume : ℚ
  buyRatioOpt : Option PyFloat

/-- Model of the volume coercion of `parse_broker_table` (broker_detail.py
lines 53-55): `pd.to_numeric(..., errors="coerce").fillna(0)` — an
unparsable cell becomes 0. -/
def toNumericFill0 (cell : String) : ℚ :=
  (pdToNumeric cell).getD 0

/-- Model of the buy-ratio coercion of `parse_broker_table` (broker_detail.py
lines 56-61): remove every percent sign, strip, `pd.to_numeric` with
coercion, divide by 100. Only the percent sign is removed — a thousands
separator makes the cell unparsable, hence NaN (and NaN / 100 is NaN). -/
def buyRatioCoerce (cell : String) : PyFloat :=
  match pdToNumeric (String.mk (trimChars (cell.toList.filter (fun c => c != '%')))) with
  | some v => PyFloat.num (v / 100)
  | Option.none => PyFloat.nan

/-- Model of the per-row value coercion of `parse_broker_table`
(broker_detail.py lines 52-66): the row is always kept; each numeric field is
coerced independently. -/
def coerceBrokerRow (r : RawBrokerCells) : BrokerRow :=
  { broker_name := PyValue.str (RawBrokerCells.nameCell r)
    buy_volume := toNumericFill0 (RawBrokerCells.buyCell r)
    sell_volume := toNumericFill0 (RawBrokerCells.sellCell r)
    net_volume := toNumericFill0 (RawBrokerCells.netCell r)
    buyRatioOpt := (RawBrokerCells.ratioCell r).map buyRatioCoerce }

/-- Model of `parse_broker_table` over the document's tables
(broker_detail.py lines 29-37): no tables yields an empty frame, otherwise
the FIRST table's rows are coerced. -/
def parse_broker_table_model (tables : List (List RawBrokerCells)) : List BrokerRow :=
  match tables with
  | [] => []
  | t :: _ => t.map coerceBrokerRow

/-! ## The broker-hits loop
    (src/src/pipeline/build_broker_hits.py, `build_broker_hits`) -/

/-- The buy-ratio value of a broker row, as the Python value that
`top.get("buy_ratio")` hands to `match_target_broker`: None when the column
was missing, the float (possibly NaN) otherwise. -/
def floatOrNone : Option PyFloat → PyValue
  | Option.none => PyValue.none
  | some f => PyValue.float f

/-- Model of `sort_values("buy_volume", ascending=False).iloc[0]`: a row with
maximal buy volume (build_broker_hits.py line 43). Which row is returned
among ties is not fixed by pandas' unstable sort; this model keeps the first
maximal row. -/
def topFold (best : BrokerRow) : List BrokerRow → BrokerRow
  | [] => best
  | r :: rs => topFold (if BrokerRow.buy_volume best < BrokerRow.buy_volume r then r else best) rs

/-- Top buyer of a broker table: None exactly when the table is empty. -/
def topBuyer : List BrokerRow → Option BrokerRow
  | [] => Option.none
  | r :: rs => some (topFold r rs)

/-- Model of Python `int()` on a float: truncation toward zero. -/
def pyIntOfFloat (q : ℚ) : ℤ :=
  if 0 ≤ q then q.floor else q.ceil

/-- Model of `meta.get("code", "")` on the matched target
(build_broker_hits.py line 58); a non-dict meta would raise an
AttributeError, but the hit branch is proved unreachable below. -/
def metaCode : Option PyValue → PyValue
  | some (PyValue.dict kvs) =>
    match kvs.find? (fun p => p.1 == "code") with
    | some p => p.2
    | Option.none => PyValue.str ""
  | _ => PyValue.str ""

/-- One stock of the limit-up frame together with the outcome of its broker
fetch: None models `fetch_broker_html` raising (the stock is skipped by the
try/except of build_broker_hits.py lines 35-38), otherwise the parsed broker
rows. -/
structure StockFetch where
  row : LimitUpRow
  fetched : Option (List BrokerRow)

/-- Hit record appended by `build_broker_hits` (lines 48-61). -/
structure BrokerHit where
  trade_date : String
  stock_name : String
  code : String
  close : Option ℚ
  volume : Option ℤ
  pct_change : ℚ
  broker_name : PyValue
  broker_code : PyValue
  buy_volume : ℤ

/-- Hit payload for one stock (build_broker_hits.py lines 48-61). -/
def mkHit (s : StockFetch) (top : BrokerRow) (meta : Option PyValue) : BrokerHit :=
  { trade_date := LimitUpRow.trade_date (StockFetch.row s)
    stock_name := LimitUpRow.stock_name (StockFetch.row s)
    code := LimitUpRow.code (StockFetch.row s)
    close := LimitUpRow.close (StockFetch.row s)
    volume := LimitUpRow.volume (StockFetch.row s)
    pct_change := LimitUpRow.pct_change (StockFetch.row s)
    broker_name := BrokerRow.broker_name top
    broker_code := metaCode meta
    buy_volume := pyIntOfFloat (BrokerRow.buy_volume top) }

/-- Model of the stock loop of `build_broker_hits` (build_broker_hits.py
lines 27-65). The call on lines 44-46 is modelled exactly as written in the
source: `match_target_broker(top.broker_name, broker_config, top.buy_ratio)`
— the broker CONFIG lands in the broker_code position and the top row's
BUY RATIO lands in the target-list position. An exception from the matcher
propagates (only the fetch is inside a try/except). -/
def build_broker_hits_model (cfg : PyValue) : List StockFetch → Except String (List BrokerHit)
  | [] => Except.ok []
  | s :: rest =>
    match StockFetch.fetched s with
    | Option.none => build_broker_hits_model cfg rest
    | some bdf =>
      match topBuyer bdf with
      | Option.none => build_broker_hits_model cfg rest
      | some top =>
        match match_target_broker (BrokerRow.broker_name top) cfg
            (floatOrNone (BrokerRow.buyRatioOpt top)) with
        | Except.error e => Except.error e
        | Except.ok (true, meta) =>
          Except.map (fun hs => mkHit s top meta :: hs) (build_broker_hits_model cfg rest)
        | Except.ok (false, _) => build_broker_hits_model cfg rest

/-! ## Control flow of run_for_date
    (src/src/app/main.py, and mailer.py / build_limitup_list.py signatures)

The date has already been resolved by `parse_date` and the environment is
assumed to carry complete email credentials (otherwise `run_for_date`
returns before doing anything, main.py lines 45-47). Calls are modelled at
the level of the positional-argument counts they pass, since Python raises a
TypeError when a call's argument count does not fit the callee's parameters
— all parameters of the two functions involved are positional and without
defaults. -/

/-- Number of parameters of `build_limitup_list(trade_date, twse_url,
tpex_url, min_pct)` (build_limitup_list.py lines 29-34). -/
def build_limitup_list_param_count : Nat := 4

/-- Number of positional arguments `run_for_date` passes in
`build_limitup_list(trade_date, limitup_url, min_pct)` (main.py line 57). -/
def run_build_call_args : Nat := 3

/-- Number of parameters of `send_email(subject, html_body, to_addrs,
username, password)` (mailer.py line 35). -/
def send_email_param_count : Nat := 5

/-- Number of positional arguments `run_for_date` passes in
`send_email(subject, html_body, email_to, email_user, email_pass,
email_from)` (main.py lines 81 and 98). -/
def run_send_call_args : Nat := 6

/-- A Python call binds iff it passes exactly as many positional arguments as
the callee has parameters (no defaults, no varargs here); otherwise the call
raises a TypeError. -/
def pyCallAccepts (passed params : Nat) : Bool :=
  passed == params

/-- Body of the notification email of the zero-hit branch (main.py line 95):
a fixed notice. -/
def no_hits_body : String :=
  "<p>今日市場上無符合您設定條件的主力鎖漲停標的，無需操作。</p>"

/-- Observable steps of one run. -/
inductive RunStep where
  | limitupListBuilt
  | brokerHitsBuilt
  | emailSent (subject body : String)
deriving DecidableEq

/-- Model of one `send_email(...)` attempt from `run_for_date`: the call
passes six positional arguments to a five-parameter function, and the
TypeError this raises is swallowed by the surrounding try/except (main.py
lines 80-85 and 97-101), so on failure no email is dispatched and the run
continues. -/
def send_email_attempt (subject body : String) : List RunStep :=
  if pyCallAccepts run_send_call_args send_email_param_count then
    [RunStep.emailSent subject body]
  else []

/-- Model of the control flow of `run_for_date` after credentials and
configuration are in hand (main.py lines 49-101): the trace of steps it
completes, and the uncaught exception that aborts it, if any. The
`build_limitup_list` call is the first pipeline step; the hit/zero-hit
branches follow it. -/
def run_for_date_model (tradeDate hitsBody : String) (hasHits : Bool) :
    List RunStep × Option String :=
  if pyCallAccepts run_build_call_args build_limitup_list_param_count then
    ([RunStep.limitupListBuilt, RunStep.brokerHitsBuilt] ++
      (if hasHits then
        send_email_attempt ("隔沖主力鎖漲停標的 " ++ tradeDate) hitsBody
      else
        send_email_attempt ("隔沖主力監控報告 " ++ tradeDate ++ " - (無符合標的)") no_hits_body),
      Option.none)
  else
    ([], some "TypeError: build_limitup_list() missing 1 required positional argument: min_pct")

/-! ## Auxiliary values for the statements below -/

/-- A target-list entry with name, code and max_ratio fields, as brokers.yaml
entries carry them. -/
def targetDictNM (nm cd mr : PyValue) : PyValue :=
  PyValue.dict [("name", nm), ("code", cd), ("max_ratio", mr)]

/-- The matched flag of a matcher outcome (its first component), with a
raised exception preserved. -/
def matchedFlag (r : Except String (Bool × Option PyValue)) : Except String Bool :=
  Except.map Prod.fst r

/-- Two meta results correspond: both absent, or both present with the same
normalized name/code fields (the meta is the matched entry itself, so under a
respelled target list it is the correspondingly respelled entry). -/
def optionFieldsEq : Option PyValue → Option PyValue → Prop
  | Option.none, Option.none => True
  | some a, some b => targetFields a = targetFields b
  | _, _ => False

/-- Broker row whose buy ratio is the float 0.0 (falsy in Python). -/
def sampleBrokerRow : BrokerRow :=
  { broker_name := PyValue.str "凱基台北"
    buy_volume := 500
    sell_volume := 10
    net_volume := 490
    buyRatioOpt := some (PyFloat.num 0) }

/-- A limit-up row as `_parse_limitup_table` produces them. -/
def sampleLimitUpRow : LimitUpRow :=
  { trade_date := "2026-01-01"
    code := "2330"
    stock_name := "台積電"
    market := "TWSE"
    close := some 986
    volume := some 5230
    pct_change := 10 }

/-- One stock whose broker fetch succeeded. -/
def sampleStock : StockFetch :=
  { row := sampleLimitUpRow, fetched := some [sampleBrokerRow] }

/-- A brokers.yaml-shaped configuration dict. -/
def sampleConfig : PyValue :=
  PyValue.dict [("brokers", PyValue.list
    [PyValue.dict [("name", PyValue.str "凱基台北"), ("code", PyValue.str "9200")]])]

/-! ## Shared lemmas -/

/-- The loop of `match_target_broker` returns the first entry of the list
that matches, and falls through to (False, None). -/
theorem matchLoop_eq_find (nn nc : String) (items : List PyValue) :
    matchLoop nn nc items =
      match items.find? (matchesTarget nn nc) with
      | some item => (true, some item)
      | Option.none => (false, Option.none) := by
  induction items with
  | nil => rfl
  | cons item rest ih =>
    rw [matchLoop]
    by_cases h1 : nn ≠ "" ∧ (targetFields item).1 ≠ "" ∧ nn = (targetFields item).1
    · rw [if_pos h1]
      have hp : matchesTarget nn nc item = true := by
        simp only [matchesTarget, Bool.or_eq_true, decide_eq_true_eq]
        exact Or.inl h1
      simp [List.find?, hp]
    · rw [if_neg h1]
      by_cases h2 : nc ≠ "" ∧ (targetFields item).2 ≠ "" ∧ nc = (targetFields item).2
      · rw [if_pos h2]
        have hp : matchesTarget nn nc item = true := by
          simp only [matchesTarget, Bool.or_eq_true, decide_eq_true_eq]
          exact Or.inr h2
        simp [List.find?, hp]
      · rw [if_neg h2]
        have hp : matchesTarget nn nc item = false := by
          simp only [matchesTarget, Bool.or_eq_false_iff, decide_eq_false_iff_not]
          exact ⟨h1, h2⟩
        simp [List.find?, hp, ih]

/-- The matcher reads its first two arguments only through `_normalize`. -/
theorem match_congr_normalize (a a' b b' ts : PyValue)
    (h1 : pyNormalize a = pyNormalize a') (h2 : pyNormalize b = pyNormalize b') :
    match_target_broker a b ts = match_target_broker a' b' ts := by
  unfold match_target_broker
  rw [h1, h2]

/-- The loop of `match_target_broker` reads each target entry only through
its normalized name/code fields: on entry-wise field-equal lists it returns
the same flag and corresponding metas. -/
theorem matchLoop_congr_rel (nn nc : String) {ts ts' : List PyValue}
    (h : List.Forall₂ (fun a b => targetFields a = targetFields b) ts ts') :
    (matchLoop nn nc ts).1 = (matchLoop nn nc ts').1
    ∧ optionFieldsEq (matchLoop nn nc ts).2 (matchLoop nn nc ts').2 := by
  induction h with
  | nil => exact ⟨rfl, trivial⟩
  | cons hab htl ih =>
    rename_i a b l l'
    simp only [matchLoop]
    rw [hab]
    by_cases h1 : nn ≠ "" ∧ (targetFields b).1 ≠ "" ∧ nn = (targetFields b).1
    · rw [if_pos h1, if_pos h1]
      exact ⟨rfl, hab⟩
    · rw [if_neg h1, if_neg h1]
      by_cases h2 : nc ≠ "" ∧ (targetFields b).2 ≠ "" ∧ nc = (targetFields b).2
      · rw [if_pos h2, if_pos h2]
        exact ⟨rfl, hab⟩
      · rw [if_neg h2, if_neg h2]
        exact ih

/-- A buy-ratio value (None, 0.0, any other float, or NaN) passed in the
target-list position never produces a successful match: a falsy value
short-circuits to (False, None) and a truthy one raises before matching. -/
theorem match_on_ratio_never_matched (bn cfg : PyValue) (r : Option PyFloat)
    (b : Bool) (m : Option PyValue)
    (h : match_target_broker bn cfg (floatOrNone r) = Except.ok (b, m)) : b = false := by
  unfold match_target_broker at h
  by_cases ht : pyTruthy (floatOrNone r) = false
  · rw [if_pos ht] at h
    injection h with h'
    injection h' with hb hm
    exact hb.symm
  · rw [if_neg ht] at h
    by_cases he : pyNormalize bn = "" ∧ pyNormalize cfg = ""
    · rw [if_pos he] at h
      injection h with h'
      injection h' with hb hm
      exact hb.symm
    · rw [if_neg he] at h
      cases r with
      | none => exact absurd rfl ht
      | some f =>
        have hiter : pyIter (floatOrNone (some f))
            = Except.error "TypeError: float object is not iterable" := rfl
        rw [hiter] at h
        exact absurd h (by simp [Except.map])

/-! ## Claim theorems -/

/-- C1 counterexample: against the target dict with name "X" and max_ratio
0.3, `match_target_broker` returns matched=true with that target as meta —
the function has no buy-ratio parameter and never consults max_ratio, so no
supplied buy_ratio (in particular 0.5) can make this call return
matched=false as the claim requires. -/
theorem c1_counterexample :
    match_target_broker (PyValue.str "X") PyValue.none
        (PyValue.list [PyValue.dict [("name", PyValue.str "X"),
          ("max_ratio", PyValue.float (PyFloat.num (3/10)))]])
      = Except.ok (true, some (PyValue.dict [("name", PyValue.str "X"),
          ("max_ratio", PyValue.float (PyFloat.num (3/10)))])) := by
  with_unfolding_all rfl

/-- C1 (amended): `match_target_broker` accepts no buy_ratio input and
ignores a target's max_ratio field entirely — the matched flag is the same
whatever value the max_ratio field holds, for every broker name and code;
acceptance is decided by name/code equality alone. -/
theorem c1_max_ratio_ignored (bn bc nm cd mr mr' : PyValue) :
    matchedFlag (match_target_broker bn bc (PyValue.list [targetDictNM nm cd mr]))
      = matchedFlag (match_target_broker bn bc (PyValue.list [targetDictNM nm cd mr'])) := by
  unfold match_target_broker
  rw [if_neg (show ¬(pyTruthy (PyValue.list [targetDictNM nm cd mr]) = false) from
      fun h => Bool.noConfusion h),
    if_neg (show ¬(pyTruthy (PyValue.list [targetDictNM nm cd mr']) = false) from
      fun h => Bool.noConfusion h)]
  by_cases he : pyNormalize bn = "" ∧ pyNormalize bc = ""
  · rw [if_pos he, if_pos he]
  · rw [if_neg he, if_neg he]
    have hfields : ∀ x : PyValue, targetFields (targetDictNM nm cd x)
        = (pyNormalize nm, pyNormalize cd) := fun _ => rfl
    simp only [pyIter, Except.map, matchedFlag, matchLoop, hfields]
    by_cases h1 : pyNormalize bn ≠ "" ∧ pyNormalize nm ≠ "" ∧ pyNormalize bn = pyNormalize nm
    · rw [if_pos h1, if_pos h1]
    · rw [if_neg h1, if_neg h1]
      by_cases h2 : pyNormalize bc ≠ "" ∧ pyNormalize cd ≠ "" ∧ pyNormalize bc = pyNormalize cd
      · rw [if_pos h2, if_pos h2]
      · rw [if_neg h2, if_neg h2]

/-- C2 counterexample: with a code-only table first and a name+code table
second, the extractor takes the first (code-only) table, while the
spec-described policy chooses the name+code table; swapping the document
order changes the extractor's choice, so selection is not order-independent
as the claim states. -/
theorem c2_counterexample :
    selected_table [RawTable.mk ["代號"] [], RawTable.mk ["名稱", "代號"] []]
        = some (RawTable.mk ["代號"] [])
    ∧ spec_select_table [RawTable.mk ["代號"] [], RawTable.mk ["名稱", "代號"] []]
        = some (RawTable.mk ["名稱", "代號"] [])
    ∧ selected_table [RawTable.mk ["名稱", "代號"] [], RawTable.mk ["代號"] []]
        = some (RawTable.mk ["名稱", "代號"] [])
    ∧ RawTable.mk ["代號"] [] ≠ RawTable.mk ["名稱", "代號"] [] := by
  exact ⟨rfl, by rfl, rfl, by decide⟩

/-- C2 (amended): both parsers always process exactly the first table of the
document, whatever tables follow it and whatever their headers say, and
return an empty result — not a table-not-found error — when the document has
no tables. -/
theorem c2_first_table_only :
    (∀ (t : RawTable) (rest : List RawTable) (td mkt : String) (thr : ℚ),
        parse_limitup_table (t :: rest) td mkt thr = parse_limitup_table [t] td mkt thr)
    ∧ (∀ (td mkt : String) (thr : ℚ), parse_limitup_table [] td mkt thr = [])
    ∧ (∀ (t : List RawBrokerCells) (rest : List (List RawBrokerCells)),
        parse_broker_table_model (t :: rest) = parse_broker_table_model [t])
    ∧ parse_broker_table_model [] = [] :=
  ⟨fun _ _ _ _ _ => rfl, fun _ _ _ => rfl, fun _ _ => rfl, rfl⟩

/-- C3: for every row whose code extracts and whose percent-change cell
parses to v, the filter of `_parse_limitup_table` drops the row when
v < threshold and keeps it (with pct_change = v) when v ≥ threshold; the
boundary v = threshold is kept. -/
theorem c3_threshold_filter (td mkt : String) (thr v : ℚ) (r : RawRow)
    (hp : pctCoerce (RawRow.pctCell r) = some v)
    (hc : ∃ c, extractCode (RawRow.codeCell r) = some c) :
    (v < thr → parseLimitupRow td mkt thr r = Option.none)
    ∧ (thr ≤ v → ∃ out, parseLimitupRow td mkt thr r = some out
        ∧ LimitUpRow.pct_change out = v) := by
  obtain ⟨c, hc⟩ := hc
  constructor
  · intro hlt
    simp [parseLimitupRow, hc, hp, hlt]
  · intro hge
    refine ⟨{ trade_date := td, code := c,
              stock_name := String.mk (trimChars (RawRow.nameCell r).toList),
              market := mkt, close := closeCoerce (RawRow.closeCell r),
              volume := volumeCoerce (RawRow.volCell r), pct_change := v }, ?_, rfl⟩
    simp [parseLimitupRow, hc, hp, not_lt.mpr hge]

/-- C3 witness: at the boundary — percent change exactly 9.8 with threshold
9.8 — the row is retained. -/
theorem c3_threshold_filter_witness :
    pctCoerce "9.8%" = some (49/5)
    ∧ (∃ c, extractCode "2330" = some c)
    ∧ (((49 : ℚ)/5 < 49/5 →
        parseLimitupRow "2026-01-01" "TWSE" (49/5)
          (RawRow.mk "2330" "台積電" "986" "9.8%" "5,230") = Option.none)
      ∧ ((49 : ℚ)/5 ≤ 49/5 →
        ∃ out, parseLimitupRow "2026-01-01" "TWSE" (49/5)
            (RawRow.mk "2330" "台積電" "986" "9.8%" "5,230") = some out
          ∧ LimitUpRow.pct_change out = 49/5)) :=
  ⟨by with_unfolding_all rfl, ⟨"2330", by rfl⟩,
    c3_threshold_filter "2026-01-01" "TWSE" (49/5) (49/5)
      (RawRow.mk "2330" "台積電" "986" "9.8%" "5,230")
      (by with_unfolding_all rfl) ⟨"2330", by rfl⟩⟩

/-- C4: on a target list, `match_target_broker` returns exactly the first
entry in list order that matches (name equality tried with both normalized
sides non-empty, else code equality likewise), and (False, None) otherwise —
in particular an empty list, or inputs that both normalize to the empty
string (which no entry can match), yield (False, None). -/
theorem c4_first_match_wins (bn bc : PyValue) (items : List PyValue) :
    match_target_broker bn bc (PyValue.list items)
      = Except.ok (match items.find? (matchesTarget (pyNormalize bn) (pyNormalize bc)) with
          | some item => (true, some item)
          | Option.none => (false, Option.none)) := by
  unfold match_target_broker
  cases items with
  | nil => rfl
  | cons a l =>
    rw [if_neg (show ¬(pyTruthy (PyValue.list (a :: l)) = false) from
      fun h => Bool.noConfusion h)]
    by_cases he : pyNormalize bn = "" ∧ pyNormalize bc = ""
    · rw [if_pos he]
      have hnone : (a :: l).find? (matchesTarget (pyNormalize bn) (pyNormalize bc))
          = Option.none := by
        rw [List.find?_eq_none]
        intro x _
        simp only [matchesTarget, he.1, he.2, Bool.or_eq_true, decide_eq_true_eq]
        rintro (⟨hne, _⟩ | ⟨hne, _⟩) <;> exact hne rfl
      rw [hnone]
    · rw [if_neg he]
      show Except.map _ (Except.ok (a :: l)) = _
      rw [Except.map, matchLoop_eq_find]

/-- C5 counterexample: the broker name with a tab character (whitespace)
inserted no longer matches the target it matched before the insertion, so
the match result is NOT invariant under arbitrary whitespace insertion —
only the space character is removed by `_normalize`. -/
theorem c5_counterexample :
    match_target_broker (PyValue.str "kgi台北") PyValue.none
        (PyValue.list [PyValue.dict [("name", PyValue.str "kgi台北")]])
      = Except.ok (true, some (PyValue.dict [("name", PyValue.str "kgi台北")]))
    ∧ match_target_broker (PyValue.str "kgi\t台北") PyValue.none
        (PyValue.list [PyValue.dict [("name", PyValue.str "kgi台北")]])
      = Except.ok (false, Option.none) :=
  ⟨by rfl, by rfl⟩

/-- C5 (amended): the match result is invariant under case changes and
insertion or removal of SPACE characters: the full result for changes in the
broker name and code (it depends on them only through their lower-cased,
space-stripped forms); the matched flag, with corresponding metas, for
changes in the target name/code strings (the meta IS the matched entry, so
it carries whatever spelling the target list used); None in either input
position behaves as the empty string; and the claim's example holds:
"KGI 台北" matches the target named "kgi台北". Whitespace other than the
space character (e.g. a tab) inside a string is not removed. -/
theorem c5_space_and_case_insensitive :
    (∀ (bn bn' bc bc' : String) (ts : PyValue),
        canonChars bn = canonChars bn' → canonChars bc = canonChars bc' →
        match_target_broker (PyValue.str bn) (PyValue.str bc) ts
          = match_target_broker (PyValue.str bn') (PyValue.str bc') ts)
    ∧ (∀ bc ts : PyValue, match_target_broker PyValue.none bc ts
        = match_target_broker (PyValue.str "") bc ts)
    ∧ (∀ bn ts : PyValue, match_target_broker bn PyValue.none ts
        = match_target_broker bn (PyValue.str "") ts)
    ∧ (∀ (n n' c c' : String),
        canonChars n = canonChars n' → canonChars c = canonChars c' →
        targetFields (PyValue.dict [("name", PyValue.str n), ("code", PyValue.str c)])
          = targetFields (PyValue.dict [("name", PyValue.str n'), ("code", PyValue.str c')]))
    ∧ (∀ (bn bc : PyValue) (ts ts' : List PyValue),
        List.Forall₂ (fun a b => targetFields a = targetFields b) ts ts' →
        ∃ p p', match_target_broker bn bc (PyValue.list ts) = Except.ok p
          ∧ match_target_broker bn bc (PyValue.list ts') = Except.ok p'
          ∧ p.1 = p'.1 ∧ optionFieldsEq p.2 p'.2)
    ∧ match_target_broker (PyValue.str "KGI 台北") PyValue.none
        (PyValue.list [PyValue.dict [("name", PyValue.str "kgi台北")]])
      = Except.ok (true, some (PyValue.dict [("name", PyValue.str "kgi台北")])) := by
  have enorm : ∀ s : String, pyNormalize (PyValue.str s)
      = String.mk (trimChars (canonChars s)) := fun _ => rfl
  refine ⟨?_, ?_, ?_, ?_, ?_, by rfl⟩
  · intro bn bn' bc bc' ts h1 h2
    exact match_congr_normalize _ _ _ _ ts
      (by rw [enorm, enorm, h1]) (by rw [enorm, enorm, h2])
  · intro bc ts
    exact match_congr_normalize _ _ _ _ ts rfl rfl
  · intro bn ts
    exact match_congr_normalize _ _ _ _ ts rfl rfl
  · intro n n' c c' h1 h2
    show (pyNormalize (PyValue.str n), pyNormalize (PyValue.str c))
        = (pyNormalize (PyValue.str n'), pyNormalize (PyValue.str c'))
    rw [enorm, enorm, enorm, enorm, h1, h2]
  · intro bn bc ts ts' h
    cases h with
    | nil =>
      exact ⟨(false, Option.none), (false, Option.none), rfl, rfl, rfl, trivial⟩
    | cons hab htl =>
      rename_i a b l l'
      have key := matchLoop_congr_rel (pyNormalize bn) (pyNormalize bc)
        (List.Forall₂.cons hab htl)
      by_cases he : pyNormalize bn = "" ∧ pyNormalize bc = ""
      · refine ⟨(false, Option.none), (false, Option.none), ?_, ?_, rfl, trivial⟩
        · unfold match_target_broker
          rw [if_neg (show ¬(pyTruthy (PyValue.list (a :: l)) = false) from
            fun hx => Bool.noConfusion hx), if_pos he]
        · unfold match_target_broker
          rw [if_neg (show ¬(pyTruthy (PyValue.list (b :: l')) = false) from
            fun hx => Bool.noConfusion hx), if_pos he]
      · refine ⟨matchLoop (pyNormalize bn) (pyNormalize bc) (a :: l),
          matchLoop (pyNormalize bn) (pyNormalize bc) (b :: l'), ?_, ?_, key.1, key.2⟩
        · unfold match_target_broker
          rw [if_neg (show ¬(pyTruthy (PyValue.list (a :: l)) = false) from
            fun hx => Bool.noConfusion hx), if_neg he]
          rfl
        · unfold match_target_broker
          rw [if_neg (show ¬(pyTruthy (PyValue.list (b :: l')) = false) from
            fun hx => Bool.noConfusion hx), if_neg he]
          rfl

/-- C5 witness: the theorem applied to concrete respellings — "KGI 台北"
matches like "kgi台北" in the broker-name position, and a target list
respelled as "KGI台北"/"9200" versus "kgi 台北"/"9 200" has equal normalized
fields, the same matched flag and corresponding metas. -/
theorem c5_space_and_case_insensitive_witness :
    canonChars "KGI 台北" = canonChars "kgi台北"
    ∧ canonChars "" = canonChars ""
    ∧ match_target_broker (PyValue.str "KGI 台北") (PyValue.str "")
        (PyValue.list [PyValue.dict [("name", PyValue.str "kgi台北")]])
      = match_target_broker (PyValue.str "kgi台北") (PyValue.str "")
        (PyValue.list [PyValue.dict [("name", PyValue.str "kgi台北")]])
    ∧ canonChars "KGI台北" = canonChars "kgi 台北"
    ∧ canonChars "9200" = canonChars "9 200"
    ∧ targetFields (PyValue.dict [("name", PyValue.str "KGI台北"), ("code", PyValue.str "9200")])
      = targetFields (PyValue.dict [("name", PyValue.str "kgi 台北"), ("code", PyValue.str "9 200")])
    ∧ List.Forall₂ (fun a b => targetFields a = targetFields b)
        [PyValue.dict [("name", PyValue.str "KGI台北"), ("code", PyValue.str "9200")]]
        [PyValue.dict [("name", PyValue.str "kgi 台北"), ("code", PyValue.str "9 200")]]
    ∧ (∃ p p', match_target_broker (PyValue.str "kgi台北") PyValue.none
          (PyValue.list [PyValue.dict [("name", PyValue.str "KGI台北"), ("code", PyValue.str "9200")]])
        = Except.ok p
      ∧ match_target_broker (PyValue.str "kgi台北") PyValue.none
          (PyValue.list [PyValue.dict [("name", PyValue.str "kgi 台北"), ("code", PyValue.str "9 200")]])
        = Except.ok p'
      ∧ p.1 = p'.1 ∧ optionFieldsEq p.2 p'.2) :=
  ⟨by rfl, rfl,
    c5_space_and_case_insensitive.1 "KGI 台北" "kgi台北" "" ""
      (PyValue.list [PyValue.dict [("name", PyValue.str "kgi台北")]]) (by rfl) rfl,
    by rfl, by rfl,
    c5_space_and_case_insensitive.2.2.2.1 "KGI台北" "kgi 台北" "9200" "9 200"
      (by rfl) (by rfl),
    List.Forall₂.cons (by rfl) List.Forall₂.nil,
    c5_space_and_case_insensitive.2.2.2.2.1 (PyValue.str "kgi台北") PyValue.none
      [PyValue.dict [("name", PyValue.str "KGI台北"), ("code", PyValue.str "9200")]]
      [PyValue.dict [("name", PyValue.str "kgi 台北"), ("code", PyValue.str "9 200")]]
      (List.Forall₂.cons (by rfl) List.Forall₂.nil)⟩

/-- C6 counterexample: as a ratio field, "1,234.5%" does NOT coerce to
12.345 — the buy-ratio pipeline strips only the percent sign, so the
thousands separator makes the cell unparsable and the result is the NaN
missing sentinel; the percent-change side of the example does hold. -/
theorem c6_counterexample :
    buyRatioCoerce "1,234.5%" = PyFloat.nan
    ∧ PyFloat.nan ≠ PyFloat.num (2469/200)
    ∧ pctCoerce "1,234.5%" = some (2469/2) :=
  ⟨by with_unfolding_all rfl, fun h => PyFloat.noConfusion h, by with_unfolding_all rfl⟩

/-- C6 (amended): division by 100 is applied only to the ratio field
buy_ratio, and percent-change fields keep percentage units ("1,234.5%" →
1234.5, "9.8%" → 9.8); but the ratio coercion does not strip thousands
separators, so a separator-free "34.5%" coerces to 0.345 while "1,234.5%"
becomes the NaN missing sentinel. -/
theorem c6_ratio_division :
    pctCoerce "1,234.5%" = some (2469/2)
    ∧ pctCoerce "9.8%" = some (49/5)
    ∧ buyRatioCoerce "34.5%" = PyFloat.num (69/200)
    ∧ buyRatioCoerce "1,234.5%" = PyFloat.nan :=
  ⟨by with_unfolding_all rfl, by with_unfolding_all rfl,
    by with_unfolding_all rfl, by with_unfolding_all rfl⟩

/-- C7 counterexample: a row whose percent-change cell is unparsable is
DROPPED by `_parse_limitup_table` (the except branch does `continue`), not
kept with a missing pct_change — even though its code extracts fine — so the
claim fails for the pct_change field. -/
theorem c7_counterexample :
    pctCoerce "--" = Option.none
    ∧ extractCode "2330" = some "2330"
    ∧ parseLimitupRow "2026-01-01" "TWSE" (49/5)
        (RawRow.mk "2330" "台積電" "1000" "--" "5000") = Option.none :=
  ⟨by rfl, by rfl, by rfl⟩

/-- C7 (amended): an unparsable close, volume or buy_ratio cell becomes a
missing sentinel and the row is kept (close/volume become None, buy_ratio
becomes NaN, and the volume cells of broker rows become 0); but an
unparsable percent-change cell drops the whole row. -/
theorem c7_missing_sentinels :
    parseLimitupRow "2026-01-01" "TWSE" (49/5)
        (RawRow.mk "2330" "台積電" "N/A" "10.0%" "x")
      = some { trade_date := "2026-01-01", code := "2330", stock_name := "台積電",
               market := "TWSE", close := Option.none, volume := Option.none,
               pct_change := 10 }
    ∧ coerceBrokerRow (RawBrokerCells.mk "凱基台北" "abc" "def" "ghi" (some "xx%"))
      = { broker_name := PyValue.str "凱基台北", buy_volume := 0, sell_volume := 0,
          net_volume := 0, buyRatioOpt := some PyFloat.nan }
    ∧ parseLimitupRow "2026-01-01" "TWSE" (49/5)
        (RawRow.mk "2330" "台積電" "1000" "--" "5000") = Option.none :=
  ⟨by with_unfolding_all rfl, by with_unfolding_all rfl, by rfl⟩

/-- C8 counterexample: a zero-hit run dispatches NO email at all — the run
aborts with a TypeError at the `build_limitup_list` call before reaching the
email step — and the zero-hit branch's fixed body contains no digit, so it
cannot contain the literal counts the claim requires. -/
theorem c8_counterexample :
    run_for_date_model "2026-01-01" "" false
      = ([], some "TypeError: build_limitup_list() missing 1 required positional argument: min_pct")
    ∧ no_hits_body.toList.filter Char.isDigit = [] :=
  ⟨rfl, by rfl⟩

/-- C8 (amended): the zero-hit branch would not dispatch an email even if it
were reached — its `send_email` call passes six positional arguments to a
five-parameter function, so the attempt raises a TypeError that the
surrounding try/except swallows — its body is a fixed digit-free notice, and
in fact a zero-hit run aborts earlier with a TypeError at the
`build_limitup_list` call. -/
theorem c8_zero_hit_no_email :
    (∀ subject : String, send_email_attempt subject no_hits_body = [])
    ∧ no_hits_body.toList.filter Char.isDigit = []
    ∧ (∀ td body : String, run_for_date_model td body false
        = ([], some "TypeError: build_limitup_list() missing 1 required positional argument: min_pct")) :=
  ⟨fun _ => rfl, by rfl, fun _ _ => rfl⟩

/-- C9: `run_for_date` passes three positional arguments to
`build_limitup_list`, which requires four, so for every trade date (and
whether or not hits would exist) the run raises a TypeError with no pipeline
step completed and no email sent — the pipeline can never complete a run. -/
theorem c9_run_aborts_with_type_error :
    run_build_call_args = 3
    ∧ build_limitup_list_param_count = 4
    ∧ pyCallAccepts run_build_call_args build_limitup_list_param_count = false
    ∧ (∀ (td body : String) (hasHits : Bool),
        run_for_date_model td body hasHits
          = ([], some "TypeError: build_limitup_list() missing 1 required positional argument: min_pct")) :=
  ⟨rfl, rfl, rfl, fun _ _ _ => rfl⟩

/-- C10: whenever `build_broker_hits` returns normally, its hits list is
empty. The loop hands `match_target_broker` the broker CONFIG as broker_code
and the top row's BUY RATIO as the target list; a falsy buy_ratio (None or
0.0) short-circuits the stock to no-match, and a truthy one (any other
float, NaN included) raises a TypeError that propagates, so no invocation
ever returns matched=true. -/
theorem c10_hits_always_empty (cfg : PyValue) (stocks : List StockFetch)
    (hits : List BrokerHit)
    (h : build_broker_hits_model cfg stocks = Except.ok hits) : hits = [] := by
  induction stocks generalizing hits with
  | nil =>
    rw [build_broker_hits_model] at h
    injection h with h'
    exact h'.symm
  | cons s rest ih =>
    rw [build_broker_hits_model] at h
    split at h
    · exact ih hits h
    · split at h
      · exact ih hits h
      · split at h
        · exact absurd h (fun hx => Except.noConfusion hx)
        · rename_i heq
          have hfalse := match_on_ratio_never_matched _ _ _ _ _ heq
          exact absurd hfalse (by simp)
        · exact ih hits h

/-- C10 witness: a stock whose top buyer has buy_ratio 0.0 yields a normal
return with an empty hits list. -/
theorem c10_hits_always_empty_witness :
    build_broker_hits_model sampleConfig [sampleStock] = Except.ok []
    ∧ ([] : List BrokerHit) = [] :=
  ⟨by with_unfolding_all rfl,
    c10_hits_always_empty sampleConfig [sampleStock] [] (by with_unfolding_all rfl)⟩
